import Mathlib

/- Verification of the azure-credit-burner core (src/src/main.rs and the llm
   modules) against its design document.

   The Rust sources are shallowly embedded: Rust `String`s are Lean `String`s,
   or `List Char` (lists of Unicode scalar values) where byte-level indexing
   matters; Rust byte indices are modelled through UTF-8 character sizes; code
   that can panic returns `Option` (`none` = panic); the remote completion
   service and the GitHub content API are modelled as oracle functions supplied
   as parameters. -/

namespace ACB

/-- UTF-8 encoded size in bytes of one Unicode scalar value. -/
def utf8Size (c : Char) : Nat :=
  if c.val < 0x80 then 1 else if c.val < 0x800 then 2
  else if c.val < 0x10000 then 3 else 4

/-- Byte length of a string given as its list of Unicode scalar values;
    this is what Rust `str::len` returns. -/
def utf8Len (s : List Char) : Nat := (s.map utf8Size).sum

/-- Rust byte slice `&s[0..n]`: the characters making up the first `n` bytes of
    `s`, or `none` when `n` overruns the string or falls strictly inside a
    multi-byte character (Rust panics in both situations). -/
def byteTake : List Char → Nat → Option (List Char)
  | [], n => if n = 0 then some [] else none
  | c :: cs, n =>
    if n = 0 then some []
    else if utf8Size c ≤ n then (byteTake cs (n - utf8Size c)).map (fun t => c :: t)
    else none

/-- Truncation marker appended to over-long file contents in
    `fetch_repo_files` (src/src/main.rs:401). -/
def truncationMarker : List Char := "...\n(内容省略)...".data

/-- Content capping in `fetch_repo_files` (src/src/main.rs:399-407).  The source
    tests `content.len() > 10000` — a count of UTF-8 *bytes* — and slices
    `&content[0..10000]`, which panics (`none`) when byte 10000 is not a
    character boundary. -/
def capContent (content : List Char) : Option (List Char) :=
  if utf8Len content > 10000 then
    (byteTake content 10000).map (fun t => t ++ truncationMarker)
  else some content

theorem utf8Size_pos (c : Char) : 0 < utf8Size c := by
  unfold utf8Size
  split <;> try simp
  split <;> try simp
  split <;> simp

theorem utf8Len_nil : utf8Len [] = 0 := rfl

theorem utf8Len_cons (c : Char) (cs : List Char) :
    utf8Len (c :: cs) = utf8Size c + utf8Len cs := by
  simp [utf8Len]

theorem utf8Len_append (a b : List Char) :
    utf8Len (a ++ b) = utf8Len a + utf8Len b := by
  simp [utf8Len]

theorem utf8Len_replicate (n : Nat) (c : Char) :
    utf8Len (List.replicate n c) = n * utf8Size c := by
  induction n with
  | zero => simp [utf8Len]
  | succ k ih => simp [List.replicate_succ, utf8Len_cons, ih, Nat.succ_mul]; omega

/-- Slicing at the byte length of a character-boundary prefix succeeds and
    returns exactly that prefix. -/
theorem byteTake_take (s : List Char) (k : Nat) (hk : k ≤ s.length) :
    byteTake s (utf8Len (s.take k)) = some (s.take k) := by
  induction s generalizing k with
  | nil =>
    simp at hk
    subst hk
    simp [byteTake, utf8Len]
  | cons c cs ih =>
    cases k with
    | zero => simp [byteTake, utf8Len]
    | succ k2 =>
      have hk2 : k2 ≤ cs.length := by simpa using hk
      have hpos := utf8Size_pos c
      have hne : ¬ (utf8Size c + utf8Len (cs.take k2) = 0) := by omega
      simp only [List.take_succ_cons, utf8Len_cons, byteTake]
      rw [if_neg hne, if_pos (by omega)]
      have : utf8Size c + utf8Len (cs.take k2) - utf8Size c = utf8Len (cs.take k2) := by omega
      rw [this, ih k2 hk2]
      rfl

/-- When no character-boundary prefix of `s` has byte length exactly `n`,
    the byte slice `&s[0..n]` panics. -/
theorem byteTake_none (s : List Char) (n : Nat)
    (h : ∀ k, utf8Len (s.take k) ≠ n) : byteTake s n = none := by
  induction s generalizing n with
  | nil =>
    have h0 := h 0
    simp [utf8Len] at h0
    have hn0 : ¬ (n = 0) := fun hn => h0 hn.symm
    simp [byteTake, hn0]
  | cons c cs ih =>
    have h0 := h 0
    simp [utf8Len] at h0
    have hn0 : ¬ (n = 0) := fun hn => h0 hn.symm
    simp only [byteTake, if_neg hn0]
    by_cases hle : utf8Size c ≤ n
    · have h2 : ∀ k, utf8Len (cs.take k) ≠ n - utf8Size c := by
        intro k hk
        apply h (k + 1)
        simp [utf8Len_cons, hk]
        omega
      rw [ih (n - utf8Size c) h2]
      simp
    · simp [hle]

theorem take_replicate_le (k n : Nat) (c : Char) (h : k ≤ n) :
    (List.replicate n c).take k = List.replicate k c := by
  rw [List.take_replicate]
  simp [Nat.min_eq_left h]

theorem utf8Len_take_replicate (k n : Nat) (c : Char) :
    utf8Len ((List.replicate n c).take k) = min k n * utf8Size c := by
  rw [List.take_replicate, utf8Len_replicate]

/-- C4 counterexample.  The claim says a file whose content length in Unicode
    scalar values is at most the cap (10000) passes through unchanged and that
    truncation never splits a multi-byte character.  The code measures the cap
    in UTF-8 bytes: 6000 copies of the two-byte character é (6000 ≤ 10000
    scalar values, but 12000 bytes) are truncated rather than passed through,
    and 3334 copies of the three-byte character あ (3334 ≤ 10000 scalar values,
    10002 bytes) make the byte slice `&content[0..10000]` panic because byte
    10000 falls inside a character. -/
theorem capContent_scalar_claim_false :
    capContent (List.replicate 6000 'é') ≠ some (List.replicate 6000 'é') ∧
    capContent (List.replicate 3334 'あ') = none := by
  have hsize : utf8Size 'é' = 2 := by decide
  have hlen : utf8Len (List.replicate 6000 'é') = 12000 := by
    rw [utf8Len_replicate, hsize]
  constructor
  · have htk : byteTake (List.replicate 6000 'é') 10000 =
        some (List.replicate 5000 'é') := by
      have h1 : utf8Len ((List.replicate 6000 'é').take 5000) = 10000 := by
        rw [utf8Len_take_replicate, hsize]; omega
      have h2 := byteTake_take (List.replicate 6000 'é') 5000
        (by rw [List.length_replicate]; omega)
      rw [h1, take_replicate_le 5000 6000 'é' (by omega)] at h2
      exact h2
    have hcap : capContent (List.replicate 6000 'é') =
        some (List.replicate 5000 'é' ++ truncationMarker) := by
      unfold capContent
      rw [if_pos (by omega), htk]
      rfl
    rw [hcap]
    intro hco
    have heq := Option.some.inj hco
    have hl := congrArg List.length heq
    rw [List.length_append, List.length_replicate, List.length_replicate] at hl
    have hm : truncationMarker.length = 13 := by decide
    omega
  · have hsize3 : utf8Size 'あ' = 3 := by decide
    have hlen3 : utf8Len (List.replicate 3334 'あ') = 10002 := by
      rw [utf8Len_replicate, hsize3]
    have htk : byteTake (List.replicate 3334 'あ') 10000 = none := by
      apply byteTake_none
      intro k
      rw [utf8Len_take_replicate, hsize3]
      omega
    unfold capContent
    rw [if_pos (by omega), htk]
    rfl

/-- C4 amended.  Truncation in `fetch_repo_files` is measured in UTF-8 bytes:
    content of at most 10000 bytes passes unchanged; content of more than
    10000 bytes becomes the character-boundary prefix of exactly 10000 bytes
    followed by the truncation marker when such a prefix exists, and panics
    (`none`) when byte 10000 splits a multi-byte character. -/
theorem capContent_byte_semantics (content : List Char) :
    (utf8Len content ≤ 10000 → capContent content = some content) ∧
    (10000 < utf8Len content →
      (∀ k, k ≤ content.length → utf8Len (content.take k) = 10000 →
        capContent content = some (content.take k ++ truncationMarker)) ∧
      ((∀ k, utf8Len (content.take k) ≠ 10000) → capContent content = none)) := by
  constructor
  · intro hle
    unfold capContent
    rw [if_neg (by omega)]
  · intro hgt
    constructor
    · intro k hk h10
      have h2 := byteTake_take content k hk
      rw [h10] at h2
      unfold capContent
      rw [if_pos (by omega), h2]
      rfl
    · intro hnone
      unfold capContent
      rw [if_pos (by omega), byteTake_none content 10000 hnone]
      rfl

/-- Witness for `capContent_byte_semantics`: a 3-byte file passes unchanged,
    and 5001 copies of é (10002 bytes) truncate at the 5000-character
    boundary. -/
theorem capContent_byte_semantics_witness :
    capContent ("abc".data) = some ("abc".data) ∧
    capContent (List.replicate 5001 'é') =
      some (List.replicate 5000 'é' ++ truncationMarker) := by
  constructor
  · exact (capContent_byte_semantics "abc".data).1 (by decide)
  · have hsize : utf8Size 'é' = 2 := by decide
    have hgt : 10000 < utf8Len (List.replicate 5001 'é') := by
      rw [utf8Len_replicate, hsize]; omega
    have happ := ((capContent_byte_semantics (List.replicate 5001 'é')).2 hgt).1
      5000 (by rw [List.length_replicate]; omega)
      (by rw [utf8Len_take_replicate, hsize]; omega)
    rw [take_replicate_le 5000 5001 'é' (by omega)] at happ
    exact happ

/-- Character-list prefix test (Bool, by scalar value). -/
def chStarts : List Char → List Char → Bool
  | [], _ => true
  | _ :: _, [] => false
  | p :: ps, c :: cs => p == c && chStarts ps cs

/-- Rust `str::contains` for a plain substring pattern. -/
def containsCh : List Char → List Char → Bool
  | [], pat => pat.isEmpty
  | c :: cs, pat => chStarts pat (c :: cs) || containsCh cs pat

/-- Rust `String::contains` on Lean strings. -/
def strContains (s pat : String) : Bool := containsCh s.data pat.data

/-- Rust `String::ends_with` on Lean strings. -/
def strEnds (s pat : String) : Bool := pat.data.isSuffixOf s.data

/-- GitHub tree entry (src/src/main.rs:90-95). -/
structure GitHubTreeItem where
  path : String
  item_type : String
  url : Option String
deriving DecidableEq

/-- Priority-file predicate (src/src/main.rs:475-481).  Rust `&&` binds
    tighter than `||`, so the `/src/` clause is one disjunct. -/
def is_priority_file (path : String) : Bool :=
  strEnds path "README.md" || strContains path "main." || strContains path "core." ||
    (strContains path "/src/" &&
      (strContains path "mod.rs" || strContains path "lib.rs" || strContains path "index."))

/-- Scalar-value lexicographic order on character lists.  Rust `str::cmp`
    compares UTF-8 bytes, and UTF-8 byte order coincides with scalar-value
    order, so this is exactly the order `sort_by` falls back to. -/
def lexLeCh : List Char → List Char → Bool
  | [], _ => true
  | _ :: _, [] => false
  | x :: s1, y :: s2 =>
    if x.toNat < y.toNat then true
    else if y.toNat < x.toNat then false
    else lexLeCh s1 s2

/-- Rust `String` ordering (byte-lexicographic) on Lean strings. -/
def pathLe (a b : String) : Bool := lexLeCh a.data b.data

theorem lexLeCh_total (a b : List Char) : lexLeCh a b = true ∨ lexLeCh b a = true := by
  induction a generalizing b with
  | nil => left; rfl
  | cons x s1 ih =>
    cases b with
    | nil => right; rfl
    | cons y s2 =>
      by_cases h1 : x.toNat < y.toNat
      · left; simp [lexLeCh, h1]
      · by_cases h2 : y.toNat < x.toNat
        · right; simp [lexLeCh, h2]
        · rcases ih s2 with h | h
          · left; simp [lexLeCh, h1, h2, h]
          · right; simp [lexLeCh, h1, h2, h]

theorem lexLeCh_cons (x y : Char) (s1 s2 : List Char) :
    lexLeCh (x :: s1) (y :: s2) = true ↔
      x.toNat < y.toNat ∨ (x.toNat = y.toNat ∧ lexLeCh s1 s2 = true) := by
  simp only [lexLeCh]
  by_cases h1 : x.toNat < y.toNat
  · simp [h1]
  · by_cases h2 : y.toNat < x.toNat
    · simp [h1, h2]
      omega
    · have hxy : x.toNat = y.toNat := by omega
      simp [h1, hxy]

theorem lexLeCh_trans (a b c : List Char)
    (hab : lexLeCh a b = true) (hbc : lexLeCh b c = true) : lexLeCh a c = true := by
  induction a generalizing b c with
  | nil => rfl
  | cons x s1 ih =>
    cases b with
    | nil => simp [lexLeCh] at hab
    | cons y s2 =>
      cases c with
      | nil => simp [lexLeCh] at hbc
      | cons z s3 =>
        rw [lexLeCh_cons] at hab hbc ⊢
        rcases hab with h | ⟨he, hr⟩ <;> rcases hbc with h2 | ⟨he2, hr2⟩
        · left; omega
        · left; omega
        · left; omega
        · right; exact ⟨by omega, ih s2 s3 hr hr2⟩

/-- The comparator of `code_files.sort_by` (src/src/main.rs:334-345) read as a
    boolean "a sorts no later than b": priority files first, then Rust string
    order (= `pathLe`). -/
def fileLe (a b : GitHubTreeItem) : Bool :=
  let ap := is_priority_file a.path
  let bp := is_priority_file b.path
  if ap && !bp then true
  else if !ap && bp then false
  else pathLe a.path b.path

theorem fileLe_total (a b : GitHubTreeItem) : fileLe a b = true ∨ fileLe b a = true := by
  unfold fileLe
  rcases lexLeCh_total a.path.data b.path.data with h | h <;>
    cases hpa : is_priority_file a.path <;> cases hpb : is_priority_file b.path <;>
    simp [hpa, hpb, pathLe, h]

theorem fileLe_trans (a b c : GitHubTreeItem)
    (hab : fileLe a b = true) (hbc : fileLe b c = true) : fileLe a c = true := by
  unfold fileLe at hab hbc ⊢
  cases hpa : is_priority_file a.path <;> cases hpb : is_priority_file b.path <;>
    cases hpc : is_priority_file c.path <;>
    simp [hpa, hpb, hpc, pathLe] at hab hbc ⊢ <;>
    exact lexLeCh_trans _ _ _ hab hbc

/-- Candidate filtering, stable priority sort and cap of `fetch_repo_files`
    (src/src/main.rs:318-350).  Rust `slice::sort_by` is a stable sort, and a
    stable sort for a fixed total preorder has a unique result, so the stable
    `List.insertionSort` produces exactly the list the source produces. -/
def code_extensions : List String :=
  [".py", ".js", ".ts", ".java", ".c", ".cpp", ".h", ".go", ".rs", ".rb", ".php", ".md",
   ".cs", ".jsx", ".tsx"]

def selectFiles (tree : List GitHubTreeItem) (max_files : Nat) : List GitHubTreeItem :=
  let code_files := tree.filter
    (fun item => item.item_type == "blob" && code_extensions.any (fun ext => strEnds item.path ext))
  let sorted := List.insertionSort (fun a b => fileLe a b = true) code_files
  sorted.take (min max_files sorted.length)

/-- File artifact (src/src/main.rs:63-67); content kept as scalar values so that
    the byte-level truncation can be expressed. -/
structure FileInfo where
  path : String
  content : List Char
deriving DecidableEq

/-- Completion order of `buffer_unordered(5)` (src/src/main.rs:362-455):
    the fetch futures are started in list order with at most 5 in flight and
    their results are collected in completion order, so output position `j`
    can hold input index `ord[j]` only if that future was already started,
    i.e. `ord[j] < j + 5`; any such permutation is a possible completion
    order. -/
def bufferSchedule5Ok (ord : List Nat) (n : Nat) : Prop :=
  List.Perm ord (List.range n) ∧ ∀ j (h : j < ord.length), ord.get ⟨j, h⟩ < j + 5

/-- One buffered fetch of `fetch_repo_files` (src/src/main.rs:370-451):
    `fr path` is the decoded remote content (`none` for any of the error
    branches, in which case the file is skipped); the content then runs
    through the byte cap, whose panic propagates. -/
def fetchOne (fr : String → Option (List Char)) (path : String) :
    Option (Option FileInfo) :=
  match fr path with
  | none => some none
  | some content => (capContent content).map (fun c => some ⟨path, c⟩)

/-- The file list produced by `fetch_repo_files` (src/src/main.rs:261-471)
    when the buffered fetches complete in order `ord`: selected files are
    fetched and collected in completion order, failures are dropped.
    `none` = a panic inside the byte slice. -/
def fetch_repo_files (tree : List GitHubTreeItem) (max_files : Nat)
    (fr : String → Option (List Char)) (ord : List Nat) : Option (List FileInfo) :=
  let sel := selectFiles tree max_files
  let inOrder := ord.filterMap (fun i => sel.get? i)
  (inOrder.mapM (fun item => fetchOne fr item.path)).map (fun l => l.filterMap id)

theorem fileLe_elim (a b : GitHubTreeItem) (h : fileLe a b = true) :
    (is_priority_file b.path = true → is_priority_file a.path = true) ∧
    (is_priority_file a.path = is_priority_file b.path → pathLe a.path b.path = true) := by
  unfold fileLe at h
  cases hpa : is_priority_file a.path <;> cases hpb : is_priority_file b.path <;>
    simp [hpa, hpb] at h ⊢ <;> exact h

theorem selectFiles_pairwise (tree : List GitHubTreeItem) (mf : Nat) :
    List.Pairwise (fun a b => fileLe a b = true) (selectFiles tree mf) := by
  unfold selectFiles
  apply List.Pairwise.sublist (List.take_sublist _ _)
  haveI : IsTotal GitHubTreeItem (fun a b => fileLe a b = true) :=
    ⟨fun a b => fileLe_total a b⟩
  haveI : IsTrans GitHubTreeItem (fun a b => fileLe a b = true) :=
    ⟨fun a b c => fileLe_trans a b c⟩
  exact List.sorted_insertionSort _ _

/-- C5 amended, part that holds: in the *selected* list (filter, stable
    priority sort, cap — before the buffered fetching) every priority path
    precedes every non-priority path, and within a priority class paths are
    in lexicographic order. -/
theorem selectFiles_order (tree : List GitHubTreeItem) (mf i j : Nat)
    (hi : i < (selectFiles tree mf).length) (hj : j < (selectFiles tree mf).length)
    (hij : i < j) :
    (is_priority_file (((selectFiles tree mf).get ⟨j, hj⟩).path) = true →
      is_priority_file (((selectFiles tree mf).get ⟨i, hi⟩).path) = true) ∧
    (is_priority_file (((selectFiles tree mf).get ⟨i, hi⟩).path) =
        is_priority_file (((selectFiles tree mf).get ⟨j, hj⟩).path) →
      pathLe ((selectFiles tree mf).get ⟨i, hi⟩).path
        ((selectFiles tree mf).get ⟨j, hj⟩).path = true) := by
  have hP := selectFiles_pairwise tree mf
  rw [List.pairwise_iff_get] at hP
  exact fileLe_elim _ _ (hP ⟨i, hi⟩ ⟨j, hj⟩ hij)

def demoTree : List GitHubTreeItem :=
  [⟨"b/main.rs", "blob", none⟩, ⟨"a/main.rs", "blob", none⟩, ⟨"zz/notes.md", "blob", none⟩]

/-- Witness for `selectFiles_order` on a concrete tree: the two priority
    paths sort before the non-priority one and lexicographically among
    themselves. -/
theorem selectFiles_order_witness :
    pathLe ((selectFiles demoTree 25).get ⟨0, by decide⟩).path
      ((selectFiles demoTree 25).get ⟨1, by decide⟩).path = true ∧
    is_priority_file (((selectFiles demoTree 25).get ⟨0, by decide⟩).path) = true := by
  constructor
  · exact (selectFiles_order demoTree 25 0 1 (by decide) (by decide) (by decide)).2 (by decide)
  · exact (selectFiles_order demoTree 25 0 1 (by decide) (by decide) (by decide)).1 (by decide)

/-- C5 counterexample.  The artifacts are collected through
    `buffer_unordered(5)`, i.e. in fetch-completion order: with two candidate
    files both schedules `[0,1]` and `[1,0]` are possible completion orders,
    they produce different outputs (so the output order is not a function of
    the input), and under `[1,0]` two priority files appear in
    anti-lexicographic order. -/
theorem fetch_output_order_claim_false :
    bufferSchedule5Ok [1, 0] 2 ∧ bufferSchedule5Ok [0, 1] 2 ∧
    fetch_repo_files demoTree 2 (fun _ => some ['x']) [1, 0] =
      some [⟨"b/main.rs", ['x']⟩, ⟨"a/main.rs", ['x']⟩] ∧
    fetch_repo_files demoTree 2 (fun _ => some ['x']) [0, 1] =
      some [⟨"a/main.rs", ['x']⟩, ⟨"b/main.rs", ['x']⟩] ∧
    fetch_repo_files demoTree 2 (fun _ => some ['x']) [1, 0] ≠
      fetch_repo_files demoTree 2 (fun _ => some ['x']) [0, 1] ∧
    pathLe "b/main.rs" "a/main.rs" = false := by
  refine ⟨⟨by decide, by decide⟩, ⟨by decide, by decide⟩, by decide, by decide, by decide, by decide⟩

/-- Question bank (src/src/main.rs:138-191), with the exact texts of
    `DeepQuestions::new`. -/
structure DeepQuestions where
  architecture : List String
  performance : List String
  security : List String
  testing : List String
  domain : List String
  distributed : List String
  maintainability : List String

def DeepQuestions.new : DeepQuestions where
  architecture :=
    ["このコードベースで使われているデザインパターンを特定し、それらが現代的なベストプラクティスにどう適合または乖離しているか詳細に分析してください。具体的なコード例を引用して説明してください。",
     "このプロジェクトのコンポーネント間の依存関係を詳細に分析し、循環依存や密結合が存在する部分を特定してください。その改善案として、どのようなリファクタリングが効果的か具体的に提案してください。",
     "このコードベースの拡張性を深く分析してください。新機能追加が困難になりそうなボトルネックはどこにあるか、具体的なコード構造を参照しながら説明し、より柔軟なアーキテクチャへの移行パスを提案してください。"]
  performance :=
    ["このコードベースにおける潜在的なパフォーマンスボトルネックを3つ以上特定し、それぞれがどのような条件下で問題になるか、どの程度のスケールで影響が出始めるかを予測してください。具体的な改善案とその期待効果も詳細に説明してください。",
     "メモリ使用量の観点からこのコードを分析し、メモリリークの可能性がある箇所や最適化できる部分を特定してください。大規模データセットで処理する場合、どのようなメモリ最適化戦略が効果的か具体的に提案してください。",
     "このコードのマルチスレッド/並列処理の実装を分析し、競合状態やデッドロックの可能性がある箇所を特定してください。並列処理効率を向上させるための具体的なリファクタリング案を、コード例を含めて提案してください。"]
  security :=
    ["このコードベースにOWASPトップ10に関連する脆弱性が存在するか詳細に分析し、具体的なコード箇所を特定してください。各脆弱性に対する修正案を、セキュリティベストプラクティスに基づいて提案してください。",
     "認証・認可の実装を詳細に分析し、特権エスカレーションやセッション管理に関する潜在的な脆弱性を特定してください。より堅牢なアクセス制御モデルへの移行計画を具体的に提案してください。",
     "データの処理・保存方法からプライバシーとデータ保護の観点で問題となる可能性がある箇所を特定し、GDPR/CCPAなどの規制に準拠するための具体的な改善策を提案してください。"]
  testing :=
    ["現在のテストカバレッジを分析し、重要なビジネスロジックで十分にテストされていない部分を特定してください。優先的に強化すべきテスト領域と、適切なテスト手法（単体/統合/E2E）を提案してください。",
     "このコードベースに効果的なプロパティベーステストや変異テストを導入するとしたら、どの部分に適用すべきか分析し、具体的なテスト実装例を3つ以上提案してください。",
     "現在のテストの質を分析し、フラキー(不安定)テスト、過度に複雑なテスト、メンテナンスコストの高いテストを特定してください。テスト品質を向上させるためのリファクタリング戦略を詳細に提案してください。"]
  domain :=
    ["このコードベースにおいて、ビジネスロジックとインフラストラクチャの関心事がどの程度分離されているか分析してください。ドメイン駆動設計の原則に基づいて、より明確な境界コンテキストを持つアーキテクチャへのリファクタリング計画を提案してください。",
     "このプロダクトの中核的な価値提案（バリュープロポジション）と、それを実現するための重要なコード部分を特定してください。それらの部分が技術的負債やメンテナンス上の課題を抱えていないか詳細に分析してください。",
     "このコードベースから、製品が将来的にどのような方向に進化する可能性があるか予測してください。現在のアーキテクチャがその進化をサポートするために必要な変更点を詳細に提案してください。"]
  distributed :=
    ["このシステムをマイクロサービスアーキテクチャに移行するとしたら、どのようなサービス境界が適切か分析し、具体的な分割案と移行戦略を提案してください。各サービスの責任範囲とAPIインターフェースを詳細に説明してください。",
     "このシステムの障害耐性と回復力を分析し、単一障害点や耐障害性の低い部分を特定してください。カオスエンジニアリングの原則に基づいて、どのような障害シナリオをテストすべきか、具体的なテスト計画を提案してください。",
     "分散トレーシング、集中型ロギング、モニタリングの観点でこのシステムを分析し、オブザーバビリティを向上させるための具体的な改善案を提案してください。どのようなメトリクスやアラートが重要か詳細に説明してください。"]
  maintainability :=
    ["複雑性メトリクス（循環的複雑度、認知的複雑度など）の観点でこのコードベースを分析し、最も複雑な部分を特定してください。これらの部分をより理解しやすく保守しやすくするためのリファクタリング計画を提案してください。",
     "このコードにおける命名規則、コメント、ドキュメントの質を詳細に分析し、理解しにくい部分や誤解を招く可能性のある部分を特定してください。読みやすさと保守性を向上させるための具体的な改善案を提案してください。",
     "このコードベースにおけるコピー＆ペーストパターンや重複コードを特定し、それらを適切に抽象化・一般化するためのリファクタリング提案を具体的なコード例とともに提示してください。"]

/-- Fallback of the `_` match arm in `get_question` (src/src/main.rs:206). -/
def fallbackQuestion : String := "このリポジトリの詳細分析を続けてください。"

/-- `DeepQuestions::get_question` (src/src/main.rs:194-208).  Indexing
    `v[index % v.len()]` is modelled with `getD`; all question vectors are
    nonempty so the default is never hit. -/
def DeepQuestions.get_question (q : DeepQuestions) (category : String) (index : Nat) : String :=
  if category = "アーキテクチャ" then q.architecture.getD (index % q.architecture.length) ""
  else if category = "パフォーマンス" then q.performance.getD (index % q.performance.length) ""
  else if category = "セキュリティ" then q.security.getD (index % q.security.length) ""
  else if category = "テスト品質" then q.testing.getD (index % q.testing.length) ""
  else if category = "ドメイン分析" then q.domain.getD (index % q.domain.length) ""
  else if category = "分散システム" then q.distributed.getD (index % q.distributed.length) ""
  else if category = "コード保守性" then
    q.maintainability.getD (index % q.maintainability.length) ""
  else fallbackQuestion

/-- The category cycle built inside `get_category` (src/src/main.rs:211-219). -/
def categoriesVec : List String :=
  ["アーキテクチャ", "パフォーマンス", "セキュリティ", "テスト品質", "ドメイン分析",
   "分散システム", "コード保守性"]

/-- `DeepQuestions::get_category` (src/src/main.rs:210-221). -/
def DeepQuestions.get_category (_q : DeepQuestions) (turn : Nat) : String :=
  categoriesVec.getD (turn % categoriesVec.length) ""

/-- Repository descriptor (src/src/main.rs:56-60). -/
structure RepoInfo where
  owner : String
  repo : String
  max_files : Nat
deriving DecidableEq

/-- The fixed opening question of `get_next_question` for turn 1
    (src/src/main.rs:638-643). -/
def openingQuestion (r : RepoInfo) : String :=
  "「" ++ r.owner ++ "/" ++ r.repo ++
    "」リポジトリを分析します。まず、このプロジェクトの概要と主要コンポーネントを特定しましょう。"

/-- `get_next_question` (src/src/main.rs:637-649). -/
def get_next_question (r : RepoInfo) (q : DeepQuestions) (turn : Nat) : String :=
  if turn = 1 then openingQuestion r
  else
    let category := q.get_category (turn - 2)
    let question_index := (turn - 2) / 7
    q.get_question category question_index

/-- The `question_index` local of `get_next_question` (src/src/main.rs:646). -/
def questionIndexAt (turn : Nat) : Nat := (turn - 2) / 7

/-- The claimed selection formula, written from the specification's words:
    category `categoryList[(turn − 2) mod categoryCount]` and question
    `category.questions[((turn − 2) / categoryCount) mod category.questions.length]`.
    Used to compare the code's `get_next_question` against the spec. -/
def questionsOf (q : DeepQuestions) (cat : String) : List String :=
  if cat = "アーキテクチャ" then q.architecture
  else if cat = "パフォーマンス" then q.performance
  else if cat = "セキュリティ" then q.security
  else if cat = "テスト品質" then q.testing
  else if cat = "ドメイン分析" then q.domain
  else if cat = "分散システム" then q.distributed
  else if cat = "コード保守性" then q.maintainability
  else []

def specQuestionChoice (q : DeepQuestions) (turn : Nat) : String :=
  let cat := categoriesVec.getD ((turn - 2) % 7) ""
  let qs := questionsOf q cat
  qs.getD (((turn - 2) / 7) % qs.length) ""

def sampleRepo : RepoInfo := ⟨"your-org", "your-private-repo1", 30⟩

theorem get_next_question_formula (r : RepoInfo) (q : DeepQuestions) (turn : Nat)
    (h2 : 2 ≤ turn) :
    get_next_question r q turn = specQuestionChoice q turn := by
  have h1 : ¬ (turn = 1) := by omega
  have hcases : (turn - 2) % 7 = 0 ∨ (turn - 2) % 7 = 1 ∨ (turn - 2) % 7 = 2 ∨
      (turn - 2) % 7 = 3 ∨ (turn - 2) % 7 = 4 ∨ (turn - 2) % 7 = 5 ∨
      (turn - 2) % 7 = 6 := by omega
  rcases hcases with h | h | h | h | h | h | h <;>
    simp [get_next_question, h1, DeepQuestions.get_category, categoriesVec, h,
      specQuestionChoice, questionsOf, DeepQuestions.get_question]

theorem get_question_fallback (q : DeepQuestions) (cat : String)
    (hcat : cat ∉ categoriesVec) (i : Nat) :
    q.get_question cat i = fallbackQuestion := by
  simp [categoriesVec] at hcat
  obtain ⟨h1, h2, h3, h4, h5, h6, h7⟩ := hcat
  simp [DeepQuestions.get_question, h1, h2, h3, h4, h5, h6, h7]

/-- C7.  `get_next_question` returns the fixed opening question at turn 1;
    for turn ≥ 2 it realises exactly the spec's selection formula; and
    `get_question` on a category name that carries no question data returns
    the fixed fallback question. -/
theorem get_next_question_spec (r : RepoInfo) :
    get_next_question r DeepQuestions.new 1 = openingQuestion r ∧
    (∀ turn, 2 ≤ turn →
      get_next_question r DeepQuestions.new turn = specQuestionChoice DeepQuestions.new turn) ∧
    (∀ cat, cat ∉ categoriesVec → ∀ i, DeepQuestions.new.get_question cat i = fallbackQuestion) :=
  ⟨rfl, fun turn h2 => get_next_question_formula r DeepQuestions.new turn h2,
   fun cat hcat i => get_question_fallback DeepQuestions.new cat hcat i⟩

/-- Witness for `get_next_question_spec` at turn 1, turn 9 and an unknown
    category. -/
theorem get_next_question_spec_witness :
    get_next_question sampleRepo DeepQuestions.new 1 = openingQuestion sampleRepo ∧
    get_next_question sampleRepo DeepQuestions.new 9 = specQuestionChoice DeepQuestions.new 9 ∧
    DeepQuestions.new.get_question "その他" 0 = fallbackQuestion :=
  ⟨(get_next_question_spec sampleRepo).1,
   (get_next_question_spec sampleRepo).2.1 9 (by omega),
   (get_next_question_spec sampleRepo).2.2 "その他" (by decide) 0⟩

/-- C6 counterexample.  Turns 2 and 16 do select the same category
    (index 0 of the cycle), but the question indices are 0 and 2, so the
    selected questions differ — the claim's "same question index" part is
    false. -/
theorem category_rotation_claim_false :
    DeepQuestions.new.get_category (2 - 2) = DeepQuestions.new.get_category (16 - 2) ∧
    questionIndexAt 2 = 0 ∧ questionIndexAt 16 = 2 ∧
    get_next_question sampleRepo DeepQuestions.new 2 ≠
      get_next_question sampleRepo DeepQuestions.new 16 := by
  decide

/-- C6 amended.  Turns 2 and 9 select the same category; turns 2 and 16
    select the same category but different question indices (0 versus 2),
    hence different questions; the full selection (category and question
    index) of turn 2 first recurs at turn 23 = 2 + 7·3. -/
theorem category_rotation_amended :
    DeepQuestions.new.get_category (9 - 2) = DeepQuestions.new.get_category (2 - 2) ∧
    DeepQuestions.new.get_category (16 - 2) = DeepQuestions.new.get_category (2 - 2) ∧
    questionIndexAt 16 ≠ questionIndexAt 2 ∧
    get_next_question sampleRepo DeepQuestions.new 23 =
      get_next_question sampleRepo DeepQuestions.new 2 := by
  decide

/-- Fuel-driven core of Rust `str::replace`: replaces the non-overlapping
    occurrences of `pat`, scanning left to right.  The fuel only serves to make
    the recursion structural; any fuel at least the length of the input gives
    the same result (`replaceAllF_fuel`). -/
def replaceAllF (pat rep : List Char) : Nat → List Char → List Char
  | _, [] => if pat.isEmpty then rep else []
  | 0, s => s
  | f + 1, c :: rest =>
    if pat.isEmpty then rep ++ c :: replaceAllF pat rep f rest
    else if chStarts pat (c :: rest) then
      rep ++ replaceAllF pat rep f (rest.drop (pat.length - 1))
    else c :: replaceAllF pat rep f rest

/-- Rust `s.replace(pat, rep)`. -/
def replaceAll (s pat rep : List Char) : List Char := replaceAllF pat rep s.length s

/-- `render_template` of src/llm/prompts/mod.rs:29-38: for each (key, value)
    pair in order, replaces every occurrence of the single-brace pattern
    `\x7b key \x7d` with the value. -/
def render_template (template : List Char) (vars : List (List Char × List Char)) :
    List Char :=
  vars.foldl (fun acc kv => replaceAll acc ('\x7b' :: (kv.1 ++ ['\x7d'])) kv.2) template

/-- `render_template` of src/src/llm/prompts.rs:31-41: same shape but the
    pattern carries double braces, `\x7b\x7b key \x7d\x7d`. -/
def render_template_src (template : List Char) (vars : List (List Char × List Char)) :
    List Char :=
  vars.foldl
    (fun acc kv => replaceAll acc ('\x7b' :: '\x7b' :: (kv.1 ++ ['\x7d', '\x7d'])) kv.2) template

theorem replaceAllF_nil (pat rep : List Char) (f : Nat) :
    replaceAllF pat rep f [] = if pat.isEmpty then rep else [] := by
  cases f <;> rfl

theorem replaceAllF_fuel (pat rep : List Char) :
    ∀ f, ∀ s g, s.length ≤ f → s.length ≤ g →
      replaceAllF pat rep f s = replaceAllF pat rep g s := by
  intro f
  induction f with
  | zero =>
    intro s g hf _
    have hs : s = [] := by
      cases s with
      | nil => rfl
      | cons c t => simp at hf
    subst hs
    rw [replaceAllF_nil, replaceAllF_nil]
  | succ f2 ih =>
    intro s g hf hg
    cases s with
    | nil => rw [replaceAllF_nil, replaceAllF_nil]
    | cons c rest =>
      cases g with
      | zero => simp at hg
      | succ g2 =>
        have hf2 : rest.length ≤ f2 := by simp at hf; omega
        have hg2 : rest.length ≤ g2 := by simp at hg; omega
        have hd2 : (rest.drop (pat.length - 1)).length ≤ rest.length := by
          simp [List.length_drop]
        simp only [replaceAllF]
        by_cases hpe : pat.isEmpty
        · rw [if_pos hpe, if_pos hpe, ih rest g2 hf2 hg2]
        · rw [if_neg hpe, if_neg hpe]
          by_cases hm : chStarts pat (c :: rest) = true
          · rw [if_pos hm, if_pos hm,
              ih (rest.drop (pat.length - 1)) g2 (le_trans hd2 hf2) (le_trans hd2 hg2)]
          · rw [if_neg hm, if_neg hm, ih rest g2 hf2 hg2]

theorem replaceAll_cons_no_match (pat rep : List Char) (c : Char) (rest : List Char)
    (hpe : pat.isEmpty = false) (hm : chStarts pat (c :: rest) = false) :
    replaceAll (c :: rest) pat rep = c :: replaceAll rest pat rep := by
  unfold replaceAll
  simp only [List.length_cons, replaceAllF, hpe, hm]
  simp

theorem replaceAll_cons_match (pat rep : List Char) (c : Char) (rest : List Char)
    (hpe : pat.isEmpty = false) (hm : chStarts pat (c :: rest) = true) :
    replaceAll (c :: rest) pat rep =
      rep ++ replaceAll (rest.drop (pat.length - 1)) pat rep := by
  unfold replaceAll
  simp only [List.length_cons, replaceAllF, hpe, hm]
  simp only [Bool.false_eq_true, if_false, if_true]
  rw [replaceAllF_fuel pat rep rest.length (rest.drop (pat.length - 1))
    (rest.drop (pat.length - 1)).length (by simp [List.length_drop]) (le_refl _)]

theorem chStarts_self_append (p t : List Char) : chStarts p (p ++ t) = true := by
  induction p with
  | nil => rfl
  | cons c cs ih => simp [chStarts, ih]

/-- Scanning text that cannot start a pattern occurrence passes it through. -/
theorem replaceAll_append_left (p0 : Char) (pr rep A s : List Char) (hA : p0 ∉ A) :
    replaceAll (A ++ s) (p0 :: pr) rep = A ++ replaceAll s (p0 :: pr) rep := by
  induction A with
  | nil => simp
  | cons a A2 ih =>
    have hne : ¬ (a = p0) := fun he => hA (by simp [he])
    have hA2 : p0 ∉ A2 := fun hm => hA (by simp [hm])
    have hm : chStarts (p0 :: pr) (a :: (A2 ++ s)) = false := by
      simp [chStarts]
      intro he
      exact absurd he.symm hne
    rw [List.cons_append, replaceAll_cons_no_match _ _ _ _ (by simp) hm, ih hA2,
      List.cons_append]

/-- Replacing in text whose first character never occurs leaves it unchanged. -/
theorem replaceAll_no_occurrence (p0 : Char) (pr rep B : List Char) (hB : p0 ∉ B) :
    replaceAll B (p0 :: pr) rep = B := by
  have h := replaceAll_append_left p0 pr rep B [] hB
  simp at h
  simp [h]
  rfl

/-- A pattern occurrence at the head is replaced and scanning resumes after it. -/
theorem replaceAll_head_match (p0 : Char) (pr rep B : List Char) :
    replaceAll ((p0 :: pr) ++ B) (p0 :: pr) rep = rep ++ replaceAll B (p0 :: pr) rep := by
  have hm : chStarts (p0 :: pr) (p0 :: (pr ++ B)) = true := chStarts_self_append _ _
  rw [List.cons_append, replaceAll_cons_match _ _ _ _ (by simp) hm]
  simp

/-- C8 amended.  Each `render_template` performs, in pair order, a global
    replace of its own placeholder pattern — single braces in the
    src/llm/prompts/mod.rs version, double braces in the src/src/llm/prompts.rs
    version.  For a template `A PAT B` whose surrounding text contains no
    opening brace, the placeholder is substituted by the value. -/
theorem render_template_spec (A B k v : List Char)
    (hA : '\x7b' ∉ A) (hB : '\x7b' ∉ B) :
    render_template (A ++ ('\x7b' :: (k ++ ['\x7d'])) ++ B) [(k, v)] = A ++ v ++ B ∧
    render_template_src (A ++ ('\x7b' :: '\x7b' :: (k ++ ['\x7d', '\x7d'])) ++ B) [(k, v)] =
      A ++ v ++ B := by
  constructor
  · show replaceAll (A ++ ('\x7b' :: (k ++ ['\x7d'])) ++ B) ('\x7b' :: (k ++ ['\x7d'])) v =
      A ++ v ++ B
    rw [List.append_assoc,
      replaceAll_append_left '\x7b' (k ++ ['\x7d']) v A (('\x7b' :: (k ++ ['\x7d'])) ++ B) hA,
      replaceAll_head_match '\x7b' (k ++ ['\x7d']) v B,
      replaceAll_no_occurrence '\x7b' (k ++ ['\x7d']) v B hB, List.append_assoc]
  · show replaceAll (A ++ ('\x7b' :: '\x7b' :: (k ++ ['\x7d', '\x7d'])) ++ B)
      ('\x7b' :: '\x7b' :: (k ++ ['\x7d', '\x7d'])) v = A ++ v ++ B
    rw [List.append_assoc,
      replaceAll_append_left '\x7b' ('\x7b' :: (k ++ ['\x7d', '\x7d'])) v A
        (('\x7b' :: '\x7b' :: (k ++ ['\x7d', '\x7d'])) ++ B) hA,
      replaceAll_head_match '\x7b' ('\x7b' :: (k ++ ['\x7d', '\x7d'])) v B,
      replaceAll_no_occurrence '\x7b' ('\x7b' :: (k ++ ['\x7d', '\x7d'])) v B hB,
      List.append_assoc]

/-- Witness for `render_template_spec` on a concrete template. -/
theorem render_template_spec_witness :
    render_template ("Hello ".data ++ ('\x7b' :: ("name".data ++ ['\x7d'])) ++ "!".data)
      [("name".data, "World".data)] = "Hello ".data ++ "World".data ++ "!".data ∧
    render_template_src
      ("Hello ".data ++ ('\x7b' :: '\x7b' :: ("name".data ++ ['\x7d', '\x7d'])) ++ "!".data)
      [("name".data, "World".data)] = "Hello ".data ++ "World".data ++ "!".data :=
  render_template_spec "Hello ".data "!".data "name".data "World".data
    (by decide) (by decide)

/-- C8 counterexample.  The src/src/llm/prompts.rs version looks for
    double-brace markers, so a single-brace `\x7b a \x7d` occurrence is left
    unsubstituted, contradicting the claim that every such occurrence is
    replaced by the value. -/
theorem render_template_claim_false :
    render_template_src ['\x7b', 'a', '\x7d'] [(['a'], ['v'])] = ['\x7b', 'a', '\x7d'] ∧
    ¬ (['\x7b', 'a', '\x7d'] : List Char) = ['v'] := by
  decide

theorem strData_append (a b : String) : (a ++ b).data = a.data ++ b.data := rfl

/-- The sample cut inside `generate_repo_debate_prompt` (src/src/main.rs:575-579):
    file contents longer than 2000 *bytes* are cut at byte 2000 (panic when that
    splits a character) with the sample marker appended. -/
def sampleCut (content : List Char) : Option (List Char) :=
  if utf8Len content > 2000 then
    (byteTake content 2000).map (fun t => t ++ "...\n(省略)...".data)
  else some content

/-- One entry of `file_samples` (src/src/main.rs:566-582). -/
def fileSample (f : FileInfo) : Option String :=
  (sampleCut f.content).map (fun c => "\n--- " ++ f.path ++ " ---\n" ++ c.asString)

/-- The README cut `&readme_content[..readme_content.len().min(1000)]`
    (src/src/main.rs:621). -/
def readmeCut (readme : List Char) : Option (List Char) :=
  byteTake readme (min (utf8Len readme) 1000)

/-- The initial user message built by `generate_repo_debate_prompt`
    (src/src/main.rs:628-631); note the extra 「debate type」の観点から clause
    that the turn-1 text of `get_next_question` does not have. -/
def initialMessage (r : RepoInfo) (debate_type : String) : String :=
  "「" ++ r.owner ++ "/" ++ r.repo ++ "」リポジトリを「" ++ debate_type ++
    "」の観点から分析します。まず、このプロジェクトの概要と主要コンポーネントを特定しましょう。"

/-- `generate_repo_debate_prompt` (src/src/main.rs:546-634): builds the system
    prompt and the initial user message.  `none` = a panic in one of the byte
    slices. -/
def generate_repo_debate_prompt (repo_info : RepoInfo) (repo_files : List FileInfo)
    (debate_type : String) : Option (String × String) := do
  let readme_content : List Char :=
    match repo_files.find? (fun f => strContains f.path "README.md") with
    | some f => f.content
    | none => "README.mdが見つかりませんでした。".data
  let file_summary := String.intercalate "\n" (repo_files.map (fun f => "- " ++ f.path))
  let samples ← (repo_files.take 5).mapM fileSample
  let file_samples := String.join samples
  let rc ← readmeCut readme_content
  let system_prompt :=
    "あなたは高度なAIエンジニアとして、GitHubリポジトリ「" ++ repo_info.owner ++ "/" ++
      repo_info.repo ++ "」の分析を行います。\nこのリポジトリについて「" ++ debate_type ++
      "」という観点から詳細に議論してください。\n\n【リポジトリ情報】\n所有者: " ++
      repo_info.owner ++ "\n\nリポジトリ名: " ++ repo_info.repo ++ "\n\nファイル数: " ++
      toString repo_files.length ++ "\n\n【ファイル一覧】\n" ++ file_summary ++
      "\n\n【README概要】\n" ++ rc.asString ++ "\n\n【主要ファイルサンプル】\n" ++
      file_samples ++
      "\n\nあなたの任務:\n\n1. このリポジトリのコードを詳細に分析し、「" ++ debate_type ++
      "」の観点から深く考察してください\n2. 技術的な長所・短所を特定し、具体的なコード例を引用してください\n3. あなたの専門知識に基づいた改善案や代替アプローチを提案してください\n4. 業界のベストプラクティスと比較した評価を行ってください\n5. このプロジェクトの将来性や発展方向について予測してください\n\nできるだけ具体的なコード例や技術的詳細に基づいて、深い洞察を提供してください。"
  return (system_prompt, initialMessage repo_info debate_type)

/-- Chat message (src/src/main.rs:70-74). -/
structure ChatMessage where
  role : String
  content : String
deriving DecidableEq

/-- What the remote completion service does with one request. -/
inductive RemoteOutcome where
  | ok (response : String) (tokens : Nat)
  | err (status : Nat) (body : String)
deriving DecidableEq

/-- Result of one logical `chat_completion` call, instrumented with the number
    of HTTP attempts made and the waits performed inside the call. -/
structure CallResult where
  result : Except (Nat × String) (String × Nat)
  attempts : Nat
  waitsSec : List Nat

/-- `AzureOpenAIClient::chat_completion` (src/src/main.rs:501-542).  The source
    builds one request, sends it once, and returns either the parsed response
    or an error carrying the HTTP status and response body.  It contains no
    retry loop, no retry counter, no sleep, and no parsing of any
    "retry after N seconds" hint, so the trace of every call is a single
    attempt with no internal waits. -/
def chat_completion (outcome : RemoteOutcome) : CallResult :=
  match outcome with
  | .ok response tokens => ⟨.ok (response, tokens), 1, []⟩
  | .err status body => ⟨.error (status, body), 1, []⟩

theorem chat_completion_ok_result (resp : String) (tk : Nat) :
    (chat_completion (.ok resp tk)).result = .ok (resp, tk) := rfl

theorem chat_completion_err_result (st : Nat) (b : String) :
    (chat_completion (.err st b)).result = .error (st, b) := rfl

/-- Conversation-loop state of `debate_runner` (src/src/main.rs:729-825):
    the `turn` counter and `messages` history, plus instrumentation that
    records the number of `chat_completion` calls made, how many of them
    failed, and every sleep performed (in milliseconds). -/
structure RunState where
  turn : Nat
  messages : List ChatMessage
  calls : Nat
  fails : Nat
  waitsMs : List Nat
deriving DecidableEq

inductive StepOut where
  | running (s : RunState)
  | finishedOk (s : RunState)
  | aborted (s : RunState)
deriving DecidableEq

/-- One iteration of the `while turn <= 20` loop of `debate_runner`
    (src/src/main.rs:746-825).  The oracle gives the remote outcome of the
    n-th `chat_completion` call.  On success: append the assistant reply,
    persist (external side effect, not tracked), append the next user question
    computed from the *pre-increment* turn, increment the turn, sleep 500 ms.
    On failure: sleep 5 s, then abort iff `turn > 3` — the source has no
    consecutive-error counter. -/
def debateStep (oracle : Nat → RemoteOutcome) (r : RepoInfo) (q : DeepQuestions)
    (s : RunState) : StepOut :=
  if s.turn > 20 then .finishedOk s
  else
    match (chat_completion (oracle s.calls)).result with
    | .ok (response, _tokens) =>
      let ms1 := s.messages ++ [⟨"assistant", response⟩]
      let nq := get_next_question r q s.turn
      .running ⟨s.turn + 1, ms1 ++ [⟨"user", nq⟩], s.calls + 1, s.fails, s.waitsMs ++ [500]⟩
    | .error _ =>
      if s.turn > 3 then
        .aborted ⟨s.turn, s.messages, s.calls + 1, s.fails + 1, s.waitsMs ++ [5000]⟩
      else
        .running ⟨s.turn, s.messages, s.calls + 1, s.fails + 1, s.waitsMs ++ [5000]⟩

/-- Runs up to `n` iterations of the conversation loop; `running` means the
    loop has not terminated within that many iterations. -/
def runDebate (oracle : Nat → RemoteOutcome) (r : RepoInfo) (q : DeepQuestions) :
    Nat → RunState → StepOut
  | 0, s => .running s
  | n + 1, s =>
    match debateStep oracle r q s with
    | .running s2 => runDebate oracle r q n s2
    | out => out

/-- Initial conversation history of `debate_runner` (src/src/main.rs:729-738). -/
def initState (system_prompt initial_message : String) : RunState :=
  ⟨1, [⟨"system", system_prompt⟩, ⟨"user", initial_message⟩], 0, 0, []⟩

/-- `debate_runner` up to its loop entry: prompt generation then the initial
    history (src/src/main.rs:724-745). -/
def debate_runner_start (r : RepoInfo) (files : List FileInfo) (dt : String) :
    Option RunState :=
  (generate_repo_debate_prompt r files dt).map (fun p => initState p.1 p.2)

def sampleDebateType : String := "コードレビュー・分析"

def sampleFiles : List FileInfo := [⟨"README.md", "hello".data⟩]

/-- C2 counterexample.  A rate-limited call through `chat_completion` returns
    immediately after a single attempt, carrying the observed status and body;
    there are no internal re-attempts and no 1, 2, 4, 8, 16-second backoff
    waits, so the claimed retry behaviour (6 attempts, waits `[1,2,4,8,16]`)
    is false. -/
theorem chat_completion_backoff_claim_false :
    (chat_completion (.err 429 "Too Many Requests")).attempts = 1 ∧
    (chat_completion (.err 429 "Too Many Requests")).waitsSec = [] ∧
    (chat_completion (.err 429 "Too Many Requests")).result =
      .error (429, "Too Many Requests") ∧
    ¬ ((chat_completion (.err 429 "Too Many Requests")).attempts = 6 ∧
       (chat_completion (.err 429 "Too Many Requests")).waitsSec = [1, 2, 4, 8, 16]) := by
  refine ⟨rfl, rfl, rfl, ?_⟩
  intro h
  exact absurd h.1 (by decide)

/-- C2 amended.  Every logical remote call makes exactly one attempt with no
    internal waits; on failure the error propagates at once, carrying the
    observed status and message.  Retrying exists only one level up, in
    `debate_runner`: a failed turn sleeps a fixed 5 seconds and the turn is
    re-attempted, unless `turn > 3`, in which case the task aborts. -/
theorem chat_completion_no_retry (r : RepoInfo) (q : DeepQuestions)
    (oracle : Nat → RemoteOutcome) (s : RunState) (st : Nat) (b : String)
    (hoc : oracle s.calls = .err st b) (h20 : s.turn ≤ 20) :
    (chat_completion (oracle s.calls)).attempts = 1 ∧
    (chat_completion (oracle s.calls)).waitsSec = [] ∧
    (chat_completion (oracle s.calls)).result = .error (st, b) ∧
    (3 < s.turn → debateStep oracle r q s =
      .aborted ⟨s.turn, s.messages, s.calls + 1, s.fails + 1, s.waitsMs ++ [5000]⟩) ∧
    (s.turn ≤ 3 → debateStep oracle r q s =
      .running ⟨s.turn, s.messages, s.calls + 1, s.fails + 1, s.waitsMs ++ [5000]⟩) := by
  rw [hoc]
  refine ⟨rfl, rfl, rfl, ?_, ?_⟩
  · intro h3
    unfold debateStep
    rw [if_neg (by omega), hoc, chat_completion_err_result]
    exact if_pos (by omega)
  · intro h3
    unfold debateStep
    rw [if_neg (by omega), hoc, chat_completion_err_result]
    exact if_neg (by omega)

def rateLimitOracle : Nat → RemoteOutcome := fun _ => .err 429 "Too Many Requests"

/-- Witness for `chat_completion_no_retry` at turn 4 of a concrete state. -/
theorem chat_completion_no_retry_witness :
    (chat_completion (rateLimitOracle 0)).attempts = 1 ∧
    (chat_completion (rateLimitOracle 0)).waitsSec = [] ∧
    (chat_completion (rateLimitOracle 0)).result = .error (429, "Too Many Requests") ∧
    (3 < 4 → debateStep rateLimitOracle sampleRepo DeepQuestions.new ⟨4, [], 0, 0, []⟩ =
      .aborted ⟨4, [], 1, 1, [5000]⟩) ∧
    (4 ≤ 3 → debateStep rateLimitOracle sampleRepo DeepQuestions.new ⟨4, [], 0, 0, []⟩ =
      .running ⟨4, [], 1, 1, [5000]⟩) :=
  chat_completion_no_retry sampleRepo DeepQuestions.new rateLimitOracle
    ⟨4, [], 0, 0, []⟩ 429 "Too Many Requests" rfl (by decide)

def failAfter3 : Nat → RemoteOutcome := fun k =>
  if k < 3 then .ok "調査結果です。" 120 else .err 500 "Internal Server Error"

/-- C3 evaluation at the failing input.  With three successful turns followed
    by failing calls, the run aborts at turn 4 after a SINGLE failed call
    (`s2.fails = 1`), because the source's error branch tests `turn > 3`
    instead of counting three consecutive failures — contradicting both the
    claim and the source's own comment (3回連続でエラーになったら終了,
    src/src/main.rs:819). -/
theorem consecutive_failure_claim_evaluated :
    ∃ s2, runDebate failAfter3 sampleRepo DeepQuestions.new 4 (initState "S" "M") =
        .aborted s2 ∧ s2.fails = 1 ∧ s2.turn = 4 :=
  ⟨_, rfl, rfl, rfl⟩

/-- C10.  While `turn ≤ 3`, persistent remote failure never terminates the
    conversation loop: after any number of iterations the loop is still
    running, at the same turn, with unchanged history — the error branch
    neither advances the turn nor aborts, so such a task retries the same
    turn forever. -/
theorem debate_loop_diverges (r : RepoInfo) (q : DeepQuestions)
    (oracle : Nat → RemoteOutcome)
    (hf : ∀ k, ∃ st b, oracle k = .err st b) :
    ∀ n (s : RunState), s.turn ≤ 3 →
      ∃ s2, runDebate oracle r q n s = .running s2 ∧
        s2.turn = s.turn ∧ s2.messages = s.messages := by
  intro n
  induction n with
  | zero => intro s _; exact ⟨s, rfl, rfl, rfl⟩
  | succ n2 ih =>
    intro s ht
    obtain ⟨st, b, hb⟩ := hf s.calls
    have hstep : debateStep oracle r q s =
        .running ⟨s.turn, s.messages, s.calls + 1, s.fails + 1, s.waitsMs ++ [5000]⟩ := by
      unfold debateStep
      rw [if_neg (by omega), hb, chat_completion_err_result]
      exact if_neg (by omega)
    have hrun : runDebate oracle r q (n2 + 1) s =
        runDebate oracle r q n2 ⟨s.turn, s.messages, s.calls + 1, s.fails + 1,
          s.waitsMs ++ [5000]⟩ := by
      simp only [runDebate, hstep]
    rw [hrun]
    exact ih ⟨s.turn, s.messages, s.calls + 1, s.fails + 1, s.waitsMs ++ [5000]⟩ ht

def failOracle : Nat → RemoteOutcome := fun _ => .err 500 "Internal Server Error"

/-- Witness for `debate_loop_diverges`: five iterations under persistent
    failure leave the loop running at turn 1 with the initial history. -/
theorem debate_loop_diverges_witness :
    ∃ s2, runDebate failOracle sampleRepo DeepQuestions.new 5 (initState "S" "M") =
        .running s2 ∧
      s2.turn = (initState "S" "M").turn ∧ s2.messages = (initState "S" "M").messages :=
  debate_loop_diverges sampleRepo DeepQuestions.new failOracle
    (fun _ => ⟨500, "Internal Server Error", rfl⟩) 5 (initState "S" "M") (by decide)

/-- C9 counterexample.  The initial user message sent at turn 1 (the second
    component of `generate_repo_debate_prompt`) contains the debate-type
    clause, while the follow-up appended after the turn-1 exchange is
    `get_next_question` at the pre-increment turn 1 — the opening text WITHOUT
    that clause.  The two differ, so the claim that the turn-2 user message
    always equals the turn-1 message is false. -/
theorem followup_question_claim_false :
    (generate_repo_debate_prompt sampleRepo sampleFiles sampleDebateType).map Prod.snd =
      some (initialMessage sampleRepo sampleDebateType) ∧
    (∃ s2, debateStep (fun _ => .ok "A" 7) sampleRepo DeepQuestions.new
        (initState "S" (initialMessage sampleRepo sampleDebateType)) = .running s2 ∧
      s2.messages.getLast? = some ⟨"user", openingQuestion sampleRepo⟩) ∧
    openingQuestion sampleRepo ≠ initialMessage sampleRepo sampleDebateType := by
  refine ⟨rfl, ⟨_, rfl, rfl⟩, by decide⟩

/-- C9 amended.  The follow-up appended after a successful exchange at turn t
    is `get_next_question` at the pre-increment value t, so the turn-2 user
    message is the fixed opening question — which always differs from the
    turn-1 initial message by the debate-type clause — and for every later
    turn n ≥ 3 the question sent is the one the selection formula assigns to
    turn n − 1. -/
theorem followup_question_semantics (r : RepoInfo) (dt : String) (q : DeepQuestions)
    (oracle : Nat → RemoteOutcome) (s : RunState) (response : String) (tokens : Nat)
    (h20 : s.turn ≤ 20) (hok : oracle s.calls = .ok response tokens) :
    debateStep oracle r q s = .running ⟨s.turn + 1,
        s.messages ++ [⟨"assistant", response⟩, ⟨"user", get_next_question r q s.turn⟩],
        s.calls + 1, s.fails, s.waitsMs ++ [500]⟩ ∧
    initialMessage r dt ≠ openingQuestion r ∧
    (2 ≤ s.turn → get_next_question r q s.turn = specQuestionChoice q s.turn) := by
  refine ⟨?_, ?_, fun h2 => get_next_question_formula r q s.turn h2⟩
  · unfold debateStep
    rw [if_neg (by omega), hok, chat_completion_ok_result]
    simp [List.append_assoc]
  · have c1 : "「".data.count '「' = 1 := by decide
    have c2 : "/".data.count '「' = 0 := by decide
    have c3 : "」リポジトリを「".data.count '「' = 1 := by decide
    have c4 :
      "」の観点から分析します。まず、このプロジェクトの概要と主要コンポーネントを特定しましょう。".data.count '「' = 0 := by
      decide
    have c5 :
      "」リポジトリを分析します。まず、このプロジェクトの概要と主要コンポーネントを特定しましょう。".data.count '「' = 0 := by
      decide
    intro he
    have hd := congrArg (fun t : String => t.data.count '「') he
    simp only [initialMessage, openingQuestion, strData_append, List.count_append] at hd
    rw [c1, c2, c3, c4, c5] at hd
    omega

/-- Witness for `followup_question_semantics` at a concrete turn-1 state. -/
theorem followup_question_semantics_witness :
    debateStep (fun _ => .ok "A" 7) sampleRepo DeepQuestions.new (initState "S" "M") =
      .running ⟨2, (initState "S" "M").messages ++
        [⟨"assistant", "A"⟩, ⟨"user", get_next_question sampleRepo DeepQuestions.new 1⟩],
        1, 0, [500]⟩ ∧
    initialMessage sampleRepo sampleDebateType ≠ openingQuestion sampleRepo ∧
    (2 ≤ (initState "S" "M").turn →
      get_next_question sampleRepo DeepQuestions.new (initState "S" "M").turn =
        specQuestionChoice DeepQuestions.new (initState "S" "M").turn) :=
  followup_question_semantics sampleRepo sampleDebateType DeepQuestions.new
    (fun _ => .ok "A" 7) (initState "S" "M") "A" 7 (by decide) rfl

/-- Scheduler state of `main` (src/src/main.rs:970-1062): how many work items
    remain to be spawned, how many spawned tasks have not yet finished, and
    how many have finished. -/
structure SchedState where
  toSpawn : Nat
  running : Nat
  finished : Nat
deriving DecidableEq

/-- Steps of the scheduling model.  `spawn` mirrors the task-creation loop
    (src/src/main.rs:999-1014): every config is passed to `tokio::spawn`,
    which starts the task running immediately, BEFORE the buffering loop
    (src/src/main.rs:1016-1041) ever runs — so the spawn step has no admission
    guard and the `limit` parameter (the `concurrency` argument, consulted
    only while awaiting already-running tasks) is deliberately unused.
    `complete` is a running task finishing, possible at any time. -/
inductive SchedStep (limit : Nat) : SchedState → SchedState → Prop
  | spawn (t r f : Nat) : SchedStep limit ⟨t + 1, r, f⟩ ⟨t, r + 1, f⟩
  | complete (t r f : Nat) : SchedStep limit ⟨t, r + 1, f⟩ ⟨t, r, f + 1⟩

inductive SchedReach (limit : Nat) : SchedState → SchedState → Prop
  | refl (s : SchedState) : SchedReach limit s s
  | tail {a b c : SchedState} : SchedReach limit a b → SchedStep limit b c →
      SchedReach limit a c

theorem sched_spawnN (limit : Nat) :
    ∀ n t r f, SchedReach limit ⟨t + n, r, f⟩ ⟨t, r + n, f⟩ := by
  intro n
  induction n with
  | zero => intro t r f; exact .refl _
  | succ k ih =>
    intro t r f
    have h1 := ih (t + 1) r f
    have h2 : SchedStep limit ⟨t + 1, r + k, f⟩ ⟨t, r + k + 1, f⟩ :=
      .spawn t (r + k) f
    have he : t + (k + 1) = t + 1 + k := by omega
    rw [he]
    exact SchedReach.tail h1 h2

/-- C1 at the failing input: with concurrency limit 1 and 2 work items the
    state with both tasks running at once is reachable (it is exactly the
    state after `main`'s spawn loop, before any completion), violating the
    claimed bound; the spawn transitions never consult the limit, just as the
    source's task-creation loop does not. -/
theorem scheduler_budget_violated :
    SchedReach 1 ⟨2, 0, 0⟩ ⟨0, 2, 0⟩ ∧ 2 > 1 :=
  ⟨sched_spawnN 1 2 0 0 0, by omega⟩

end ACB
